import Mathlib

/-!
Verification development for the frclib-datalog library: a shallow embedding
of the record codec (variable-width headers, control and data records), the
reader ingest pipeline and the writer append path, with theorems checking the
natural-language specification against the code.

Bytes are modelled as natural numbers (each meaningful byte is below 256);
machine integers are naturals with explicit reductions modulo powers of two
where the source wraps; fallible operations return an Except value.
-/

namespace DataLogSpec

/-- Little-endian byte list of length n for the value v (low byte first).
Mirrors truncating the 8-byte little-endian representation to n bytes. -/
def leBytes : Nat → Nat → List Nat
  | 0, _ => []
  | n + 1, v => v % 256 :: leBytes n (v / 256)

/-- Value of a little-endian byte list; each byte is reduced mod 256 as a u8
would be. Missing high bytes of the 8-byte buffer are zero. -/
def leVal : List Nat → Nat
  | [] => 0
  | b :: bs => b % 256 + 256 * leVal bs

/-- Error taxonomy of the library (src/error.rs), restricted to the variants
reachable in the embedded code paths. -/
inductive DataLogError where
  | RecordReaderOutOfBounds (tag : String)
  | RecordDeserialize (tag : String)
  | RecordType (tag : String)
  | RecordTooLarge
  | IntCast
  | Utf8
  | NoSuchEntry
  | OutsideEntryLifetime
  | EntryTypeMismatch
  | InvalidDataLog
  | MetadataTooLarge
  | MagicMismatch
  | VersionMismatch
deriving DecidableEq, Repr

/-- Variable-width unsigned integer (src/proto/util.rs UInt): a u64 value
paired with a byte count. -/
structure UInt where
  size : Nat
  value : Nat
deriving DecidableEq, Repr

/-- Mirrors the private constructor that performs no shrinking. -/
def UInt.new_unchecked (size value : Nat) : UInt := ⟨size, value⟩

/-- Shrink to the byte width given by the 8-way cascade in the source. -/
def UInt.shrink (u : UInt) : UInt :=
  let universal_int := u.value
  if universal_int ≤ 0xFF then UInt.new_unchecked 1 universal_int
  else if universal_int ≤ 0xFFFF then UInt.new_unchecked 2 universal_int
  else if universal_int ≤ 0x00FFFFFF then UInt.new_unchecked 3 universal_int
  else if universal_int ≤ 0xFFFFFFFF then UInt.new_unchecked 4 universal_int
  else if universal_int ≤ 0x00FFFFFFFFFF then UInt.new_unchecked 5 universal_int
  else if universal_int ≤ 0xFFFFFFFFFFFF then UInt.new_unchecked 6 universal_int
  else if universal_int ≤ 0x00FFFFFFFFFFFFFF then UInt.new_unchecked 7 universal_int
  else UInt.new_unchecked 8 universal_int

/-- Public constructor: always shrinks. -/
def UInt.new (size value : Nat) : UInt := (UInt.new_unchecked size value).shrink

def UInt.get_byte_count (u : UInt) : Nat := u.size

/-- The first size bytes of the little-endian representation of value
(src reads them straight out of the u64 with raw parts). -/
def UInt.as_binary (u : UInt) : List Nat := leBytes u.size u.value

/-- From u64: size 8 then shrink (the From impls shrink twice, which is
idempotent). -/
def UInt.fromU64 (v : Nat) : UInt := UInt.new 8 v

/-- From u32: size 4 then shrink. -/
def UInt.fromU32 (v : Nat) : UInt := UInt.new 4 v

/-- Outcome of UInt.from_binary. The source either returns Some, returns
None (when the length does not fit in a u8), or hits an out-of-bounds slice
index while copying more than 8 bytes into its 8-byte buffer. -/
inductive FromBinaryResult where
  | ok (u : UInt)
  | failed
  | indexPanic
deriving DecidableEq, Repr

/-- UInt::from_binary: u8::try_from(len) fails above 255; the copy into the
8-byte buffer goes out of bounds above 8; otherwise the bytes are read
little-endian and the result is built with the shrinking constructor. -/
def UInt.from_binary (le_bytes : List Nat) : FromBinaryResult :=
  let size := le_bytes.length
  if size ≤ 255 then
    if size ≤ 8 then .ok (UInt.new size (leVal le_bytes))
    else .indexPanic
  else .failed

/-! UTF-8. Rust strings are modelled as lists of Unicode scalar values; the
byte level uses the standard UTF-8 encoding, and reading a string from bytes
validates exactly as str::from_utf8 does. -/

/-- UTF-8 encoding of one scalar value. -/
def utf8EncodeChar (c : Nat) : List Nat :=
  if c < 0x80 then [c]
  else if c < 0x800 then [0xC0 + c / 64, 0x80 + c % 64]
  else if c < 0x10000 then [0xE0 + c / 4096, 0x80 + c / 64 % 64, 0x80 + c % 64]
  else [0xF0 + c / 262144, 0x80 + c / 4096 % 64, 0x80 + c / 64 % 64, 0x80 + c % 64]

/-- UTF-8 encoding of a string (list of scalar values). -/
def utf8Encode (cps : List Nat) : List Nat := cps.flatMap utf8EncodeChar

/-- Byte length of a Rust string, as str::len returns it. -/
def utf8ByteLen (cps : List Nat) : Nat := (utf8Encode cps).length

/-- Is b a UTF-8 continuation byte. -/
def utf8Cont (b : Nat) : Bool := 0x80 ≤ b && b ≤ 0xBF

/-- Strict UTF-8 decoding, rejecting overlong forms, surrogates and values
above 0x10FFFF, exactly as str::from_utf8 and String::from_utf8 do. -/
def utf8Decode : List Nat → Option (List Nat)
  | [] => some []
  | b :: bs =>
    if b ≤ 0x7F then
      (utf8Decode bs).map (fun cs => b :: cs)
    else if 0xC2 ≤ b && b ≤ 0xDF then
      match bs with
      | b1 :: bs1 =>
        if utf8Cont b1 then
          (utf8Decode bs1).map (fun cs => ((b - 0xC0) * 64 + (b1 - 0x80)) :: cs)
        else none
      | [] => none
    else if 0xE0 ≤ b && b ≤ 0xEF then
      match bs with
      | b1 :: b2 :: bs2 =>
        let lo1 := if b = 0xE0 then 0xA0 else 0x80
        let hi1 := if b = 0xED then 0x9F else 0xBF
        if (lo1 ≤ b1 && b1 ≤ hi1) && utf8Cont b2 then
          (utf8Decode bs2).map
            (fun cs => ((b - 0xE0) * 4096 + (b1 - 0x80) * 64 + (b2 - 0x80)) :: cs)
        else none
      | _ => none
    else if 0xF0 ≤ b && b ≤ 0xF4 then
      match bs with
      | b1 :: b2 :: b3 :: bs3 =>
        let lo1 := if b = 0xF0 then 0x90 else 0x80
        let hi1 := if b = 0xF4 then 0x8F else 0xBF
        if (lo1 ≤ b1 && b1 ≤ hi1) && utf8Cont b2 && utf8Cont b3 then
          (utf8Decode bs3).map
            (fun cs =>
              ((b - 0xF0) * 262144 + (b1 - 0x80) * 4096
                + (b2 - 0x80) * 64 + (b3 - 0x80)) :: cs)
        else none
      | _ => none
    else none

/-- Scalar values of a Lean string literal, for concrete inputs. -/
def strCp (s : String) : List Nat := s.data.map Char.toNat

/-! Byte reader (src/proto/util.rs RecordByteReader). The cursor is the list
of remaining bytes; every consumer returns the value and the rest, or an
out-of-bounds error leaving no partial effect. -/

namespace RecordByteReader

def byte : List Nat → Except DataLogError (Nat × List Nat)
  | [] => .error (.RecordReaderOutOfBounds "u8")
  | b :: bs => .ok (b, bs)

def inspect_byte : List Nat → Except DataLogError Nat
  | [] => .error (.RecordReaderOutOfBounds "u8")
  | b :: _ => .ok b

def bytes (len : Nat) (bs : List Nat) : Except DataLogError (List Nat × List Nat) :=
  if bs.length < len then .error (.RecordReaderOutOfBounds "bytes")
  else .ok (bs.take len, bs.drop len)

def inspect_bytes (len : Nat) (bs : List Nat) : Except DataLogError (List Nat) :=
  if bs.length < len then .error (.RecordReaderOutOfBounds "bytes")
  else .ok (bs.take len)

/-- Reads len bytes and decodes them as UTF-8, yielding scalar values. -/
def string (len : Nat) (bs : List Nat) : Except DataLogError (List Nat × List Nat) :=
  if bs.length < len then .error (.RecordReaderOutOfBounds "string")
  else
    match utf8Decode (bs.take len) with
    | some cps => .ok (cps, bs.drop len)
    | none => .error (.RecordReaderOutOfBounds "string")

def u32 (bs : List Nat) : Except DataLogError (Nat × List Nat) :=
  if bs.length < 4 then .error (.RecordReaderOutOfBounds "u32")
  else .ok (leVal (bs.take 4), bs.drop 4)

/-- i64 as its 64-bit pattern. -/
def i64 (bs : List Nat) : Except DataLogError (Nat × List Nat) :=
  if bs.length < 8 then .error (.RecordReaderOutOfBounds "i64")
  else .ok (leVal (bs.take 8), bs.drop 8)

def bool (bs : List Nat) : Except DataLogError (Bool × List Nat) :=
  match bs with
  | [] => .error (.RecordReaderOutOfBounds "bool")
  | b :: rest => .ok (decide (b % 256 ≠ 0), rest)

/-- f32 as its 32-bit pattern. -/
def f32 (bs : List Nat) : Except DataLogError (Nat × List Nat) :=
  if bs.length < 4 then .error (.RecordReaderOutOfBounds "f32")
  else .ok (leVal (bs.take 4), bs.drop 4)

/-- f64 as its 64-bit pattern. -/
def f64 (bs : List Nat) : Except DataLogError (Nat × List Nat) :=
  if bs.length < 8 then .error (.RecordReaderOutOfBounds "f64")
  else .ok (leVal (bs.take 8), bs.drop 8)

/-- Reads size bytes through UInt.from_binary; the sizes used by the codec
are at most 8, so the non-Some outcomes surface as the same error. -/
def uint (size : Nat) (bs : List Nat) : Except DataLogError (UInt × List Nat) :=
  if bs.length < size then .error (.RecordReaderOutOfBounds "uint")
  else
    match UInt.from_binary (bs.take size) with
    | .ok u => .ok (u, bs.drop size)
    | _ => .error (.RecordReaderOutOfBounds "uint")

def skip (len : Nat) (bs : List Nat) : Except DataLogError (List Nat) :=
  if bs.length < len then .error (.RecordReaderOutOfBounds "skip")
  else .ok (bs.drop len)

def the_rest (bs : List Nat) : List Nat := bs

def bytes_left (bs : List Nat) : Nat := bs.length

end RecordByteReader

/-! Entries (src/proto/entries.rs): the type-serial fingerprint and the
value-type interfaces consumed from the external frclib-core crate. -/

/-- The accumulation loop of get_str_type_serial: for the 0-based position i,
add codepoint times ((i + 1) mod 8), wrapping as a u32. -/
def serialLoop : Nat → Nat → List Nat → Nat
  | value, _, [] => value
  | value, i, c :: cs => serialLoop ((value + c * ((i + 1) % 8)) % 2 ^ 32) (i + 1) cs

/-- get_str_type_serial: iterate the characters of the type string, then
return value * len + len where len is the u32-truncated byte length. -/
def get_str_type_serial (ty : List Nat) : Nat :=
  let value := serialLoop 0 0 ty
  let len := utf8ByteLen ty % 2 ^ 32
  (value * len + len) % 2 ^ 32

def RAW_TYPE_SERIAL : Nat := get_str_type_serial (strCp "raw")
def BOOLEAN_TYPE_SERIAL : Nat := get_str_type_serial (strCp "boolean")
def INT_TYPE_SERIAL : Nat := get_str_type_serial (strCp "int64")
def FLOAT_TYPE_SERIAL : Nat := get_str_type_serial (strCp "float")
def DOUBLE_TYPE_SERIAL : Nat := get_str_type_serial (strCp "double")
def STRING_TYPE_SERIAL : Nat := get_str_type_serial (strCp "string")
def BOOLEAN_ARRAY_TYPE_SERIAL : Nat := get_str_type_serial (strCp "boolean[]")
def INT_ARRAY_TYPE_SERIAL : Nat := get_str_type_serial (strCp "int64[]")
def FLOAT_ARRAY_TYPE_SERIAL : Nat := get_str_type_serial (strCp "float[]")
def DOUBLE_ARRAY_TYPE_SERIAL : Nat := get_str_type_serial (strCp "double[]")
def STRING_ARRAY_TYPE_SERIAL : Nat := get_str_type_serial (strCp "string[]")

def SUPPORTED_TYPES_SERIALS : List Nat :=
  [RAW_TYPE_SERIAL, BOOLEAN_TYPE_SERIAL, INT_TYPE_SERIAL, FLOAT_TYPE_SERIAL,
   DOUBLE_TYPE_SERIAL, STRING_TYPE_SERIAL, BOOLEAN_ARRAY_TYPE_SERIAL,
   INT_ARRAY_TYPE_SERIAL, FLOAT_ARRAY_TYPE_SERIAL, DOUBLE_ARRAY_TYPE_SERIAL,
   STRING_ARRAY_TYPE_SERIAL]

/-- The compile-time constant for the type string "test", written out the way
the const_get_data_type_serial macro expands for the four characters, with
u32 wrapping on each step. -/
def TEST_SERIAL : Nat :=
  let v0 := 0
  let v1 := (v0 + Char.toNat 't' * ((0 + 1) % 8)) % 2 ^ 32
  let v2 := (v1 + Char.toNat 'e' * ((1 + 1) % 8)) % 2 ^ 32
  let v3 := (v2 + Char.toNat 's' * ((2 + 1) % 8)) % 2 ^ 32
  let v4 := (v3 + Char.toNat 't' * ((3 + 1) % 8)) % 2 ^ 32
  (v4 * 4 + 4) % 2 ^ 32

/-- The value-type taxonomy consumed from frclib-core (external interface):
eleven primitive kinds plus struct, struct array and void. A struct type
carries its descriptor's type string and fixed byte size. -/
inductive FrcType where
  | Raw
  | Boolean
  | Int
  | Float
  | Double
  | String
  | BooleanArray
  | IntArray
  | FloatArray
  | DoubleArray
  | StringArray
  | Struct (type_str : List Nat) (size : Nat)
  | StructArray (type_str : List Nat) (size : Nat)
  | Void
deriving DecidableEq, Repr

/-- The type-erased value taxonomy from frclib-core. Float and double values
are carried as their IEEE-754 bit patterns; strings as scalar-value lists. -/
inductive FrcValue where
  | Raw (data : List Nat)
  | Boolean (b : Bool)
  | Int (bits : Nat)
  | Float (bits : Nat)
  | Double (bits : Nat)
  | String (s : List Nat)
  | BooleanArray (bs : List Bool)
  | IntArray (xs : List Nat)
  | FloatArray (xs : List Nat)
  | DoubleArray (xs : List Nat)
  | StringArray (ss : List (List Nat))
  | Struct (type_str : List Nat) (size : Nat) (data : List Nat)
  | StructArray (type_str : List Nat) (size : Nat) (data : List Nat)
  | Void
deriving DecidableEq, Repr

/-- get_type accessor of FrcValue (external interface). -/
def FrcValue.get_type : FrcValue → FrcType
  | .Raw _ => .Raw
  | .Boolean _ => .Boolean
  | .Int _ => .Int
  | .Float _ => .Float
  | .Double _ => .Double
  | .String _ => .String
  | .BooleanArray _ => .BooleanArray
  | .IntArray _ => .IntArray
  | .FloatArray _ => .FloatArray
  | .DoubleArray _ => .DoubleArray
  | .StringArray _ => .StringArray
  | .Struct t n _ => .Struct t n
  | .StructArray t n _ => .StructArray t n
  | .Void => .Void

/-- get_data_type: the on-disk type string for a value type; None for void. -/
def get_data_type : FrcType → Option (List Nat)
  | .Raw => some (strCp "raw")
  | .Boolean => some (strCp "boolean")
  | .Int => some (strCp "int64")
  | .Float => some (strCp "float")
  | .Double => some (strCp "double")
  | .String => some (strCp "string")
  | .BooleanArray => some (strCp "boolean[]")
  | .IntArray => some (strCp "int64[]")
  | .FloatArray => some (strCp "float[]")
  | .DoubleArray => some (strCp "double[]")
  | .StringArray => some (strCp "string[]")
  | .Struct t _ => some t
  | .StructArray t _ => some t
  | .Void => none

/-- get_data_type_serial: the prehashed type, with u32::MAX standing in for
the invalid (zero or void) cases as in the source. -/
def get_data_type_serial : FrcType → Nat
  | .Raw => RAW_TYPE_SERIAL
  | .Boolean => BOOLEAN_TYPE_SERIAL
  | .Int => INT_TYPE_SERIAL
  | .Float => FLOAT_TYPE_SERIAL
  | .Double => DOUBLE_TYPE_SERIAL
  | .String => STRING_TYPE_SERIAL
  | .BooleanArray => BOOLEAN_ARRAY_TYPE_SERIAL
  | .IntArray => INT_ARRAY_TYPE_SERIAL
  | .FloatArray => FLOAT_ARRAY_TYPE_SERIAL
  | .DoubleArray => DOUBLE_ARRAY_TYPE_SERIAL
  | .StringArray => STRING_ARRAY_TYPE_SERIAL
  | .Struct t _ =>
      let s := get_str_type_serial t
      if s = 0 then 0xFFFFFFFF else s
  | .StructArray t _ =>
      let s := get_str_type_serial t
      if s = 0 then 0xFFFFFFFF else s
  | .Void => 0xFFFFFFFF

/-- Entry lifecycle state with microsecond bounds. -/
inductive EntryLifeStatus where
  | Alive (start : Nat)
  | Dead (start stop : Nat)
deriving DecidableEq, Repr

/-! Small association-list maps standing in for the HashMaps of the source;
insert replaces an existing binding for the key. -/

def alookup {α β : Type} [DecidableEq α] (k : α) : List (α × β) → Option β
  | [] => none
  | (k1, v) :: rest => if k = k1 then some v else alookup k rest

def ainsert {α β : Type} [DecidableEq α] (k : α) (v : β) : List (α × β) → List (α × β)
  | [] => [(k, v)]
  | (k1, v1) :: rest =>
    if k = k1 then (k, v) :: rest else (k1, v1) :: ainsert k v rest

/-! Record codec (src/proto/records.rs). -/

namespace RecordElementBitfield

/-- Bits 0..=1 of the length bitfield: entry id width 1..=4. -/
def id_length (b : Nat) : Nat := b % 4 + 1

/-- Bits 2..=3: payload size width 1..=4. -/
def payload_length (b : Nat) : Nat := b / 4 % 4 + 1

/-- Bits 4..=6: timestamp width 1..=8. -/
def timestamp_length (b : Nat) : Nat := b / 16 % 8 + 1

/-- Header length after the bitfield byte. -/
def total_length (b : Nat) : Nat := id_length b + payload_length b + timestamp_length b

end RecordElementBitfield

/-- The shrunk header fields of a record plus its bitfield byte. -/
structure RecordElementSizes where
  bit_field : Nat
  timestamp : UInt
  id : UInt
  payload : UInt
deriving DecidableEq, Repr

/-- RecordElementSizes::create: shrink each field and pack the bitfield byte
from the widths minus one. -/
def RecordElementSizes.create (timestamp id payload : Nat) : RecordElementSizes :=
  let wrapped_timestamp := (UInt.fromU64 timestamp).shrink
  let wrapped_id := (UInt.fromU32 id).shrink
  let wrapped_payload := (UInt.fromU32 payload).shrink
  let bit_field :=
    (wrapped_id.get_byte_count - 1) % 4
      + (wrapped_payload.get_byte_count - 1) % 4 * 4
      + (wrapped_timestamp.get_byte_count - 1) % 8 * 16
  ⟨bit_field, wrapped_timestamp, wrapped_id, wrapped_payload⟩

/-- Control record bodies; strings are lists of scalar values. -/
inductive ControlRecord where
  | Start (name entry_type metadata : List Nat)
  | Finish
  | Metadata (metadata : List Nat)
deriving DecidableEq, Repr

/-- get_entry_type: only a Start declares a type. -/
def ControlRecord.get_entry_type : ControlRecord → Option (List Nat)
  | .Start _ entry_type _ => some entry_type
  | _ => none

/-- ControlRecord::write_to on an in-memory buffer: the exact framed bytes
the source emits, including the Metadata variant writing its length field and
the logical entry id but not the metadata bytes themselves. -/
def ControlRecord.write_to (c : ControlRecord) (timestamp id : Nat) :
    Except DataLogError (List Nat) :=
  match c with
  | .Start name entry_type entry_metadata =>
    let name_len := utf8ByteLen name
    let entry_type_len := utf8ByteLen entry_type
    let entry_metadata_len := utf8ByteLen entry_metadata
    if name_len < 2 ^ 32 ∧ entry_type_len < 2 ^ 32 ∧ entry_metadata_len < 2 ^ 32 then
      let payload_len := (17 + name_len + entry_type_len + entry_metadata_len) % 2 ^ 32
      let element_sizes := RecordElementSizes.create timestamp 0 payload_len
      .ok ([element_sizes.bit_field, 0]
        ++ element_sizes.payload.as_binary
        ++ element_sizes.timestamp.as_binary
        ++ [0]
        ++ leBytes 4 id
        ++ leBytes 4 name_len ++ utf8Encode name
        ++ leBytes 4 entry_type_len ++ utf8Encode entry_type
        ++ leBytes 4 entry_metadata_len ++ utf8Encode entry_metadata)
    else .error .IntCast
  | .Finish =>
    let element_sizes := RecordElementSizes.create timestamp 0 5
    .ok ([element_sizes.bit_field, 0]
      ++ element_sizes.payload.as_binary
      ++ element_sizes.timestamp.as_binary
      ++ [1]
      ++ leBytes 4 id)
  | .Metadata entry_metadata =>
    let entry_metadata_len := utf8ByteLen entry_metadata
    if entry_metadata_len < 2 ^ 32 then
      let payload_len := (9 + entry_metadata_len) % 2 ^ 32
      let element_sizes := RecordElementSizes.create timestamp 0 payload_len
      .ok ([element_sizes.bit_field, 0]
        ++ element_sizes.payload.as_binary
        ++ element_sizes.timestamp.as_binary
        ++ [2]
        ++ leBytes 4 entry_metadata_len
        ++ leBytes 4 id)
    else .error .IntCast

/-- ControlRecord::from_binary: discriminator byte, 4-byte logical entry id,
then the variant payload. -/
def ControlRecord.from_binary (bs : List Nat) :
    Except DataLogError (ControlRecord × Nat) := do
  let (control_type, bs) ← RecordByteReader.byte bs
  let (entry_id, bs) ← RecordByteReader.u32 bs
  match control_type with
  | 0 =>
    match RecordByteReader.u32 bs with
    | .error _ => .error (.RecordReaderOutOfBounds "Start control record")
    | .ok (name_len, bs) =>
      if RecordByteReader.bytes_left bs < name_len then
        .error (.RecordReaderOutOfBounds "Start control record name")
      else do
        let (name, bs) ← RecordByteReader.string name_len bs
        match RecordByteReader.u32 bs with
        | .error _ => .error (.RecordReaderOutOfBounds "Start control record")
        | .ok (type_len, bs) =>
          if RecordByteReader.bytes_left bs < type_len then
            .error (.RecordReaderOutOfBounds "Start control record type")
          else do
            let (entry_type, bs) ← RecordByteReader.string type_len bs
            match RecordByteReader.u32 bs with
            | .error _ => .error (.RecordReaderOutOfBounds "Start control record")
            | .ok (metadata_len, bs) =>
              if RecordByteReader.bytes_left bs < metadata_len then
                .error (.RecordReaderOutOfBounds "Start control record metadata")
              else do
                let (entry_metadata, _) ← RecordByteReader.string metadata_len bs
                .ok (.Start name entry_type entry_metadata, entry_id)
  | 1 => .ok (.Finish, entry_id)
  | 2 =>
    match RecordByteReader.u32 bs with
    | .error _ => .error (.RecordReaderOutOfBounds "Metadata control record length")
    | .ok (metadata_len, bs) =>
      if RecordByteReader.bytes_left bs ≠ metadata_len then
        .error (.RecordReaderOutOfBounds "Metadata control record string")
      else do
        let (entry_metadata, _) ← RecordByteReader.string metadata_len bs
        .ok (.Metadata entry_metadata, entry_id)
  | _ => .error (.RecordDeserialize "Unsupported control record type")

/-- Data record payloads: the eleven supported value kinds. Integer, Float
and Double carry bit patterns; strings are scalar-value lists. -/
inductive DataRecord where
  | Raw (data : List Nat)
  | Boolean (b : Bool)
  | Integer (bits : Nat)
  | Float (bits : Nat)
  | Double (bits : Nat)
  | String (s : List Nat)
  | BooleanArray (bs : List Bool)
  | IntegerArray (xs : List Nat)
  | FloatArray (xs : List Nat)
  | DoubleArray (xs : List Nat)
  | StringArray (ss : List (List Nat))
deriving DecidableEq, Repr

/-- get_data_type: the canonical type string of the payload kind. -/
def DataRecord.get_data_type : DataRecord → List Nat
  | .Raw _ => strCp "raw"
  | .Boolean _ => strCp "boolean"
  | .Integer _ => strCp "int64"
  | .Float _ => strCp "float"
  | .Double _ => strCp "double"
  | .String _ => strCp "string"
  | .BooleanArray _ => strCp "boolean[]"
  | .IntegerArray _ => strCp "int64[]"
  | .FloatArray _ => strCp "float[]"
  | .DoubleArray _ => strCp "double[]"
  | .StringArray _ => strCp "string[]"

/-- matches_type: does the entry type string name this payload kind. -/
def DataRecord.matches_type (d : DataRecord) (e_type : List Nat) : Bool :=
  match d with
  | .Raw _ => e_type = strCp "raw"
  | .Boolean _ => e_type = strCp "boolean"
  | .Integer _ => e_type = strCp "int64"
  | .Float _ => e_type = strCp "float"
  | .Double _ => e_type = strCp "double"
  | .String _ => e_type = strCp "string"
  | .BooleanArray _ => e_type = strCp "boolean[]"
  | .IntegerArray _ => e_type = strCp "int64[]"
  | .FloatArray _ => e_type = strCp "float[]"
  | .DoubleArray _ => e_type = strCp "double[]"
  | .StringArray _ => e_type = strCp "string[]"

/-- IntoFrcValue for DataRecord: the one-to-one variant mapping. -/
def DataRecord.into_frc_value : DataRecord → FrcValue
  | .Raw d => .Raw d
  | .Boolean b => .Boolean b
  | .Integer v => .Int v
  | .Float v => .Float v
  | .Double v => .Double v
  | .String s => .String s
  | .BooleanArray xs => .BooleanArray xs
  | .IntegerArray xs => .IntArray xs
  | .FloatArray xs => .FloatArray xs
  | .DoubleArray xs => .DoubleArray xs
  | .StringArray ss => .StringArray ss

/-- From FrcValue for DataRecord: struct values collapse to Raw over their
descriptor bytes, Void to an empty Raw. -/
def DataRecord.fromFrcValue : FrcValue → DataRecord
  | .Raw d => .Raw d
  | .Boolean b => .Boolean b
  | .Int v => .Integer v
  | .Float v => .Float v
  | .Double v => .Double v
  | .String s => .String s
  | .BooleanArray xs => .BooleanArray xs
  | .IntArray xs => .IntegerArray xs
  | .FloatArray xs => .FloatArray xs
  | .DoubleArray xs => .DoubleArray xs
  | .StringArray ss => .StringArray ss
  | .Struct _ _ d => .Raw d
  | .StructArray _ _ d => .Raw d
  | .Void => .Raw []

/-- binary_payload_size: the payload byte count, or none when it does not
fit in a u32 (checked conversions and checked multiplication). -/
def DataRecord.binary_payload_size : DataRecord → Option Nat
  | .Raw d => if d.length < 2 ^ 32 then some d.length else none
  | .Boolean _ => some 1
  | .Integer _ => some 8
  | .Float _ => some 4
  | .Double _ => some 8
  | .String s => if utf8ByteLen s < 2 ^ 32 then some (utf8ByteLen s) else none
  | .BooleanArray xs =>
    if xs.length < 2 ^ 32 ∧ xs.length * 1 < 2 ^ 32 then some (xs.length * 1) else none
  | .IntegerArray xs =>
    if xs.length < 2 ^ 32 ∧ xs.length * 8 < 2 ^ 32 then some (xs.length * 8) else none
  | .FloatArray xs =>
    if xs.length < 2 ^ 32 ∧ xs.length * 4 < 2 ^ 32 then some (xs.length * 4) else none
  | .DoubleArray xs =>
    if xs.length < 2 ^ 32 ∧ xs.length * 8 < 2 ^ 32 then some (xs.length * 8) else none
  | .StringArray ss =>
    let size := (ss.map (fun s => 4 + utf8ByteLen s)).sum
    if size < 2 ^ 32 then some size else none

/-- The payload bytes DataRecord::write_to emits after the header; a string
array element whose length does not fit a u32 is silently skipped. -/
def DataRecord.payload_bytes : DataRecord → List Nat
  | .Raw d => d
  | .Boolean b => [if b then 1 else 0]
  | .Integer v => leBytes 8 v
  | .Float v => leBytes 4 v
  | .Double v => leBytes 8 v
  | .String s => utf8Encode s
  | .BooleanArray xs => xs.map (fun b => if b then 1 else 0)
  | .IntegerArray xs => xs.flatMap (leBytes 8)
  | .FloatArray xs => xs.flatMap (leBytes 4)
  | .DoubleArray xs => xs.flatMap (leBytes 8)
  | .StringArray ss =>
    ss.flatMap (fun s =>
      if utf8ByteLen s < 2 ^ 32 then leBytes 4 (utf8ByteLen s) ++ utf8Encode s else [])

/-- DataRecord::write_to: frame header from the shrunk sizes, then the
payload. -/
def DataRecord.write_to (d : DataRecord) (timestamp id : Nat) :
    Except DataLogError (List Nat) :=
  match d.binary_payload_size with
  | none => .error .RecordTooLarge
  | some payload_size =>
    let element_sizes := RecordElementSizes.create timestamp id payload_size
    .ok (element_sizes.bit_field
      :: element_sizes.id.as_binary
      ++ element_sizes.payload.as_binary
      ++ element_sizes.timestamp.as_binary
      ++ d.payload_bytes)

/-- Greedy fixed-width little-endian elements, with structural fuel: every
iteration consumes w ≥ 1 bytes, so the byte count bounds the iterations and
the zero-fuel branch coincides with the empty-buffer exit. -/
def leChunks_go (w : Nat) : Nat → List Nat → List Nat
  | 0, _ => []
  | fuel + 1, bs =>
    if 0 < w ∧ w ≤ bs.length then
      leVal (bs.take w) :: leChunks_go w fuel (bs.drop w)
    else []

/-- Read w-byte little-endian values while at least w bytes remain,
discarding a shorter tail. -/
def leChunks (w : Nat) (bs : List Nat) : List Nat := leChunks_go w bs.length bs

/-- The string[] payload loop with structural fuel (each iteration consumes
at least 4 bytes): while at least 4 bytes remain read a 4-byte length then
that many UTF-8 bytes; fail if fewer bytes remain than declared or the bytes
are not UTF-8. -/
def parseStringArray_go : Nat → List Nat → Except DataLogError (List (List Nat))
  | 0, _ => .ok []
  | fuel + 1, bs =>
    if 4 ≤ bs.length then
      let len := leVal (bs.take 4)
      let rest := bs.drop 4
      if rest.length < len then .error (.RecordReaderOutOfBounds "String[]")
      else
        match utf8Decode (rest.take len) with
        | none => .error .Utf8
        | some s => (parseStringArray_go fuel (rest.drop len)).map (fun ss => s :: ss)
    else .ok []

def parseStringArray (bs : List Nat) : Except DataLogError (List (List Nat)) :=
  parseStringArray_go bs.length bs

/-- The body of DataRecord::from_binary, dispatching on the resolved type
serial in the order of the source match. -/
def DataRecord.from_binary_inner (bs : List Nat) (type_serial : Nat) :
    Except DataLogError DataRecord :=
  if type_serial = DOUBLE_TYPE_SERIAL then do
    let (v, _) ← RecordByteReader.f64 bs
    .ok (.Double v)
  else if type_serial = STRING_TYPE_SERIAL then
    match utf8Decode (RecordByteReader.the_rest bs) with
    | some s => .ok (.String s)
    | none => .error .Utf8
  else if type_serial = RAW_TYPE_SERIAL then
    .ok (.Raw (RecordByteReader.the_rest bs))
  else if type_serial = BOOLEAN_TYPE_SERIAL then do
    let (b, _) ← RecordByteReader.bool bs
    .ok (.Boolean b)
  else if type_serial = DOUBLE_ARRAY_TYPE_SERIAL then
    .ok (.DoubleArray (leChunks 8 bs))
  else if type_serial = INT_TYPE_SERIAL then do
    let (v, _) ← RecordByteReader.i64 bs
    .ok (.Integer v)
  else if type_serial = FLOAT_TYPE_SERIAL then do
    let (v, _) ← RecordByteReader.f32 bs
    .ok (.Float v)
  else if type_serial = BOOLEAN_ARRAY_TYPE_SERIAL then
    .ok (.BooleanArray (bs.map (fun b => decide (b % 256 ≠ 0))))
  else if type_serial = INT_ARRAY_TYPE_SERIAL then
    .ok (.IntegerArray (leChunks 8 bs))
  else if type_serial = FLOAT_ARRAY_TYPE_SERIAL then
    .ok (.FloatArray (leChunks 4 bs))
  else if type_serial = STRING_ARRAY_TYPE_SERIAL then
    (parseStringArray bs).map .StringArray
  else .error (.RecordType "Unsupported type")

/-- DataRecord::from_binary: an empty payload is rejected up front for every
type serial. -/
def DataRecord.from_binary (bs : List Nat) (type_serial : Nat) :
    Except DataLogError DataRecord :=
  if bs.isEmpty then .error (.RecordReaderOutOfBounds "Bytes len is 0")
  else DataRecord.from_binary_inner bs type_serial

/-- Framed records: a typed payload or a control body, with timestamp and
entry id (for a control record, the logical id from the body). -/
inductive Record where
  | Data (d : DataRecord) (timestamp : Nat) (id : Nat)
  | Control (c : ControlRecord) (timestamp : Nat) (id : Nat)
deriving DecidableEq, Repr

def Record.get_id : Record → Nat
  | .Data _ _ id => id
  | .Control _ _ id => id

def Record.get_timestamp : Record → Nat
  | .Data _ ts _ => ts
  | .Control _ ts _ => ts

def Record.is_data : Record → Bool
  | .Data _ _ _ => true
  | .Control _ _ _ => false

def Record.is_control : Record → Bool
  | .Data _ _ _ => false
  | .Control _ _ _ => true

/-- Record::from_binary over one framed chunk: bitfield byte (defaulting to
zero on an empty buffer), variable-width id, skipped payload-size field,
variable-width timestamp (defaulting to zero when unreadable), then a
control or data payload; the framed id zero means control, and an unknown or
unsupported mapped serial falls back to raw for data records. -/
def Record.from_binary (chunk : List Nat) (type_map : List (Nat × Nat)) :
    Except DataLogError Record :=
  let bit_field := match chunk with | [] => 0 | b :: _ => b
  let bs := match chunk with | [] => ([] : List Nat) | _ :: rest => rest
  let id_length := bit_field % 4 + 1
  let payload_length := bit_field / 4 % 4 + 1
  let timestamp_length := bit_field / 16 % 8 + 1
  match RecordByteReader.bytes id_length bs with
  | .error _ => .error (.RecordReaderOutOfBounds "Entry id")
  | .ok (bin_int, bs) =>
    match UInt.from_binary bin_int with
    | .ok u =>
      if u.value < 2 ^ 32 then
        let id := u.value
        match RecordByteReader.skip payload_length bs with
        | .error e => .error e
        | .ok bs =>
          match RecordByteReader.bytes timestamp_length bs with
          | .error _ => .error (.RecordReaderOutOfBounds "Timestamp")
          | .ok (ts_bytes, bs) =>
            let timestamp :=
              match UInt.from_binary ts_bytes with
              | .ok u => u.value
              | _ => 0
            let is_control := id = 0
            let serial0 := (alookup id type_map).getD RAW_TYPE_SERIAL
            let type_serial :=
              if ¬is_control ∧ ¬serial0 ∈ SUPPORTED_TYPES_SERIALS then
                RAW_TYPE_SERIAL
              else serial0
            let record_payload := RecordByteReader.the_rest bs
            if is_control then
              match ControlRecord.from_binary record_payload with
              | .ok (control_record, logical_id) =>
                .ok (.Control control_record timestamp logical_id)
              | .error _ => .error (.RecordDeserialize "Unsupported control record")
            else
              match DataRecord.from_binary record_payload type_serial with
              | .ok data_record => .ok (.Data data_record timestamp id)
              | .error _ => .error (.RecordDeserialize "Unsupported data record")
      else .error (.RecordDeserialize "Failed to read entry id")
    | _ => .error (.RecordDeserialize "Failed to read entry id")

/-- chunk_by_record: split the stream into framed chunks. The loop breaks
(discarding the tail) only when fewer bytes remain than the three header
fields declare; reading the header past the bitfield byte or the payload
itself past the end of the buffer is an error, exactly as in the source. -/
def chunk_by_record_go : Nat → List Nat → Except DataLogError (List (List Nat))
  | _, [] => .ok []
  | 0, _ :: _ => .ok []
  | fuel + 1, b :: rest =>
    let bs := b :: rest
    let total_length := RecordElementBitfield.total_length b
    if bs.length < total_length then .ok []
    else if bs.length < 1 + total_length then
      .error (.RecordReaderOutOfBounds "bytes")
    else
      let header := bs.take (1 + total_length)
      let payload_size_bytes :=
        (header.drop (1 + RecordElementBitfield.id_length b)).take
          (RecordElementBitfield.payload_length b)
      match UInt.from_binary payload_size_bytes with
      | .ok u =>
        let payload_size := u.value
        let total_size := 1 + total_length + payload_size
        if bs.length < total_size then
          .error (.RecordReaderOutOfBounds "bytes")
        else
          (chunk_by_record_go fuel (bs.drop total_size)).map
            (fun chunks => bs.take total_size :: chunks)
      | _ => .error (.RecordDeserialize "Failed to read payload size")

/-- chunk_by_record with structural fuel: every consumed record is at least
4 bytes long, so the byte count bounds the iterations; the zero-fuel branch
is only reachable with an empty buffer, where it coincides with the loop
exit. -/
def chunk_by_record (bs : List Nat) : Except DataLogError (List (List Nat)) :=
  chunk_by_record_go bs.length bs

/-- parse_records body: decode each chunk, dropping failures, and seed the
type-serial map from every Start control record that decodes. -/
def parse_records_go (chunks : List (List Nat)) (type_map : List (Nat × Nat)) :
    List Record :=
  match chunks with
  | [] => []
  | c :: cs =>
    match Record.from_binary c type_map with
    | .ok record =>
      let type_map2 :=
        match record with
        | .Control control _ id =>
          match control.get_entry_type with
          | some entry_type => ainsert id (get_str_type_serial entry_type) type_map
          | none => type_map
        | _ => type_map
      record :: parse_records_go cs type_map2
    | .error _ => parse_records_go cs type_map

/-- parse_records: chunk the whole buffer (propagating chunking errors),
then decode chunk by chunk. -/
def parse_records (bs : List Nat) (type_map : List (Nat × Nat)) :
    Except DataLogError (List Record) :=
  (chunk_by_record bs).map (fun chunks => parse_records_go chunks type_map)

/-! Reader (src/reader.rs). -/

/-- Per-entry state of the reader: the three timestamped timelines. -/
structure EntryData where
  values : List (Nat × FrcValue)
  metadata : List (Nat × List Nat)
  type_str : List (Nat × List Nat)
deriving DecidableEq, Repr

/-- Reader configuration. -/
structure DataLogReaderConfig where
  require_magic : Bool
  required_version : Option (Nat × Nat)
deriving DecidableEq, Repr

/-- The default configuration: magic required, version (1, 0) required. -/
def DataLogReaderConfig.default : DataLogReaderConfig :=
  ⟨true, some (1, 0)⟩

/-- The reader state after open: format version, header metadata, the
name-to-id map and the per-id entry data. -/
structure DataLogReader where
  format_version : Nat × Nat
  header_metadata : List Nat
  keys : List (List Nat × Nat)
  data : List (Nat × EntryData)
deriving DecidableEq, Repr

/-- get_entry_data: fetch the entry record, creating empty timelines on
first touch. -/
def getOrInitEntry (id : Nat) (data : List (Nat × EntryData)) :
    EntryData × List (Nat × EntryData) :=
  match alookup id data with
  | some d => (d, data)
  | none =>
    let d : EntryData := ⟨[], [], []⟩
    (d, ainsert id d data)

/-- Mutable state threaded through the ingest loop. -/
structure IngestState where
  keys : List (List Nat × Nat)
  data : List (Nat × EntryData)
  entry_types : List (Nat × List Nat)
  entry_status : List (Nat × EntryLifeStatus)
deriving DecidableEq, Repr

/-- One step of the reader ingest loop over a parsed record, mirroring the
match in DataLogReader::read, including the Data arm keeping a value only
when matches_type on the current type string is false. -/
def ingestStep (st : IngestState) (record : Record) :
    Except DataLogError IngestState :=
  match record with
  | .Control control timestamp id =>
    match control with
    | .Start name type_str metadata =>
      match alookup id st.entry_status with
      | some (.Alive _) => .ok st
      | _ =>
        let entry_status := ainsert id (EntryLifeStatus.Alive timestamp) st.entry_status
        let entry_types := ainsert id type_str st.entry_types
        let keys := ainsert name id st.keys
        let (d, data) := getOrInitEntry id st.data
        let d := { d with
          type_str := d.type_str ++ [(timestamp, type_str)],
          metadata := d.metadata ++ [(timestamp, metadata)] }
        .ok ⟨keys, ainsert id d data, entry_types, entry_status⟩
    | .Finish =>
      match alookup id st.entry_status with
      | some (.Alive start) =>
        .ok { st with entry_status := ainsert id (.Dead start timestamp) st.entry_status }
      | _ => .ok st
    | .Metadata metadata =>
      match alookup id st.entry_status with
      | some (.Alive _) =>
        let (d, data) := getOrInitEntry id st.data
        let d := { d with metadata := d.metadata ++ [(timestamp, metadata)] }
        .ok { st with data := ainsert id d data }
      | _ => .ok st
  | .Data value timestamp id =>
    match alookup id st.entry_status with
    | some (.Alive _) =>
      match alookup id st.entry_types with
      | none => .error .NoSuchEntry
      | some type_str =>
        if value.matches_type type_str then .ok st
        else
          let (d, data) := getOrInitEntry id st.data
          let d := { d with values := d.values ++ [(timestamp, value.into_frc_value)] }
          .ok { st with data := ainsert id d data }
    | _ => .ok st

/-- The ingest loop over the parsed record list. -/
def ingest (st : IngestState) : List Record → Except DataLogError IngestState
  | [] => .ok st
  | r :: rs => do
    let st2 ← ingestStep st r
    ingest st2 rs

/-- Insertion into a timestamp-ordered timeline. -/
def insertByTs {α : Type} (x : Nat × α) : List (Nat × α) → List (Nat × α)
  | [] => [x]
  | y :: ys => if x.1 ≤ y.1 then x :: y :: ys else y :: insertByTs x ys

/-- Sorting a timeline by timestamp (sort_by_key on the timestamp). -/
def sortByTs {α : Type} : List (Nat × α) → List (Nat × α)
  | [] => []
  | x :: xs => insertByTs x (sortByTs xs)

/-- sort_data: sort all three timelines of every entry by timestamp. -/
def sort_data (r : DataLogReader) : DataLogReader :=
  { r with data := r.data.map (fun p =>
      (p.1, { values := sortByTs p.2.values,
              metadata := sortByTs p.2.metadata,
              type_str := sortByTs p.2.type_str })) }

def WPILOG_MAGIC : List Nat := [87, 80, 73, 76, 79, 71]

/-- DataLogReader::read on the full file bytes: magic, version (stored as
(second byte, first byte)), header metadata (invalid UTF-8 replaced by the
empty string), then record parsing and ingest. -/
def readAll (file : List Nat) (config : DataLogReaderConfig) :
    Except DataLogError DataLogReader := do
  let (magic, file) ← RecordByteReader.bytes 6 file
  if config.require_magic ∧ magic ≠ WPILOG_MAGIC then
    .error .MagicMismatch
  else do
    let (version, file) ← RecordByteReader.bytes 2 file
    let format_version := (version.getD 1 0, version.getD 0 0)
    match config.required_version with
    | some required =>
      if required ≠ format_version then .error .VersionMismatch
      else readAllAfterHeader file format_version
    | none => readAllAfterHeader file format_version
where
  /-- The remainder of read after the version check. -/
  readAllAfterHeader (file : List Nat) (format_version : Nat × Nat) :
      Except DataLogError DataLogReader := do
    let (metadata_len, file) ← RecordByteReader.u32 file
    let (metadata_bytes, file) ← RecordByteReader.bytes metadata_len file
    let header_metadata := (utf8Decode metadata_bytes).getD []
    let all_records ← parse_records file []
    let st ← ingest ⟨[], [], [], []⟩ all_records
    .ok ⟨format_version, header_metadata, st.keys, st.data⟩

/-- DataLogReader::try_new: read then sort all timelines. -/
def try_new (file : List Nat) (config : DataLogReaderConfig) :
    Except DataLogError DataLogReader :=
  (readAll file config).map sort_data

/-- read_entry: the full value timeline for a key, or empty. -/
def read_entry (r : DataLogReader) (entry_key : List Nat) : List (Nat × FrcValue) :=
  match alookup entry_key r.keys with
  | some id =>
    match alookup id r.data with
    | some d => d.values
    | none => []
  | none => []

/-- read_entry_after: values with timestamp strictly greater than the bound. -/
def read_entry_after (r : DataLogReader) (entry_key : List Nat) (timestamp : Nat) :
    List (Nat × FrcValue) :=
  match alookup entry_key r.keys with
  | some id =>
    match alookup id r.data with
    | some d => d.values.filter (fun v => timestamp < v.1)
    | none => []
  | none => []

/-- read_entry_before: values with timestamp strictly less than the bound. -/
def read_entry_before (r : DataLogReader) (entry_key : List Nat) (timestamp : Nat) :
    List (Nat × FrcValue) :=
  match alookup entry_key r.keys with
  | some id =>
    match alookup id r.data with
    | some d => d.values.filter (fun v => v.1 < timestamp)
    | none => []
  | none => []

/-- read_entry_between: values with start ≤ timestamp ≤ stop, both ends
inclusive. -/
def read_entry_between (r : DataLogReader) (entry_key : List Nat)
    (start stop : Nat) : List (Nat × FrcValue) :=
  match alookup entry_key r.keys with
  | some id =>
    match alookup id r.data with
    | some d => d.values.filter (fun v => start ≤ v.1 ∧ v.1 ≤ stop)
    | none => []
  | none => []

/-! Writer (src/writer.rs). The output file is modelled as the list of bytes
appended so far; the wall clock is passed in explicitly. -/

/-- Per-entry writer state (the scratch buffer is omitted: it never reaches
the byte stream). -/
structure WriterEntryData where
  key : List Nat
  entry_type : List Nat
  prehashed_type : Nat
  lifestatus : EntryLifeStatus
deriving DecidableEq, Repr

/-- Writer state: buffered output bytes, the entry table, the key map, the
monotone id counter and the process-unique log id. -/
structure DataLogWriter where
  out : List Nat
  entry_data : List WriterEntryData
  entry_id_map : List (List Nat × Nat)
  highest_entry_id : Nat
  datalog_id : Nat
deriving DecidableEq, Repr

/-- An entry handle: the owning log id and the entry id. -/
structure WriterEntryId where
  datalog_id : Nat
  entry_id : Nat
deriving DecidableEq, Repr

/-- DataLogWriter::new after the header is emitted: empty tables, the id
counter at zero, tagged with the process-wide log id. -/
def DataLogWriter.new (datalog_id : Nat) (metadata : List Nat) :
    Except DataLogError DataLogWriter :=
  if utf8ByteLen metadata < 2 ^ 32 then
    .ok ⟨WPILOG_MAGIC ++ [0, 1] ++ leBytes 4 (utf8ByteLen metadata) ++ utf8Encode metadata,
      [], [], 0, datalog_id⟩
  else .error .MetadataTooLarge

/-- get_entry_dynamic at time now: reject void, return an existing live
handle of matching type, or allocate the next id (starting from the counter
value zero), record the entry and append a Start control record. -/
def DataLogWriter.get_entry_dynamic (w : DataLogWriter) (key : List Nat)
    (entry_type : FrcType) (metadata : Option (List Nat)) (now : Nat) :
    Except DataLogError (DataLogWriter × WriterEntryId) :=
  if entry_type = .Void then
    .error (.RecordType "Cannot create a void entry")
  else
    match alookup key w.entry_id_map with
    | some id =>
      match w.entry_data.get? id with
      | none => .error .NoSuchEntry
      | some data =>
        if data.prehashed_type ≠ get_data_type_serial entry_type then
          .error .EntryTypeMismatch
        else
          match data.lifestatus with
          | .Dead _ _ => .error .OutsideEntryLifetime
          | .Alive _ => .ok (w, ⟨w.datalog_id, id⟩)
    | none =>
      let id := w.highest_entry_id
      let entry_type_str : List Nat :=
        match get_data_type entry_type with
        | some s => s
        | none => []
      let new_entry : WriterEntryData :=
        ⟨key, entry_type_str, get_data_type_serial entry_type, .Alive now⟩
      let w2 := { w with
        entry_id_map := ainsert key id w.entry_id_map,
        entry_data := w.entry_data ++ [new_entry],
        highest_entry_id := w.highest_entry_id + 1 }
      let md := metadata.getD []
      if utf8ByteLen md > 2 ^ 32 - 1 then .error .MetadataTooLarge
      else
        match get_data_type entry_type with
        | none => .error (.RecordType "Cannot create a void entry")
        | some type_str => do
          let record_bytes ← (ControlRecord.Start key type_str md).write_to now id
          .ok ({ w2 with out := w2.out ++ record_bytes }, ⟨w.datalog_id, id⟩)

/-- inner_write: void is a no-op; reject a handle from another log or a dead
entry; optionally check the prehashed type; then append a framed data
record. -/
def DataLogWriter.inner_write (w : DataLogWriter) (id : WriterEntryId)
    (timestamp : Nat) (value : FrcValue) (check_type : Bool) :
    Except DataLogError DataLogWriter :=
  if value = .Void then .ok w
  else if id.datalog_id ≠ w.datalog_id then .error .InvalidDataLog
  else
    match w.entry_data.get? id.entry_id with
    | none => .error .NoSuchEntry
    | some data =>
      match data.lifestatus with
      | .Dead _ _ => .error .OutsideEntryLifetime
      | .Alive _ =>
        if check_type ∧ data.prehashed_type ≠ get_data_type_serial value.get_type then
          .error .EntryTypeMismatch
        else do
          let record_bytes ← (DataRecord.fromFrcValue value).write_to timestamp id.entry_id
          .ok { w with out := w.out ++ record_bytes }

/-! Specification-side definitions and concrete inputs used by the
theorems. -/

/-- The type-serial rule as the specification words it: sum the codepoints
times their 1-based index taken mod 8, then multiply by the length and add
the length, as a u32. -/
def typeSerialSpec (ty : List Nat) : Nat :=
  let L := utf8ByteLen ty % 2 ^ 32
  (((ty.enum.map (fun p => p.2 * ((p.1 + 1) % 8))).sum) * L + L) % 2 ^ 32

/-- A file holding a Start control record for entry 1 named x of type int64
followed by three int64 data records at timestamps 10, 20 and 30. -/
def sample_file : List Nat :=
  WPILOG_MAGIC ++ [0, 1] ++ [0, 0, 0, 0]
    ++ (((ControlRecord.Start (strCp "x") (strCp "int64") []).write_to 5 1).toOption.getD [])
    ++ (((DataRecord.Integer 10).write_to 10 1).toOption.getD [])
    ++ (((DataRecord.Integer 20).write_to 20 1).toOption.getD [])
    ++ (((DataRecord.Integer 30).write_to 30 1).toOption.getD [])

/-- The record portion of sample_file (after the 12-byte header). -/
def sample_records_bytes : List Nat := sample_file.drop 12

/-- The reader state sample_file ingests to. -/
def sample_reader : DataLogReader :=
  ⟨(1, 0), [], [(strCp "x", 1)],
    [(1, ⟨[], [(5, [])], [(5, strCp "int64")]⟩)]⟩

/-- A fresh writer tagged with log id 1 and header metadata "test". -/
def writer0 : DataLogWriter :=
  (DataLogWriter.new 1 (strCp "test")).toOption.getD ⟨[], [], [], 0, 0⟩

/-- A one-record stream: bitfield 0, entry id 1, payload length 1,
timestamp 0, one payload byte. -/
def tiny_stream : List Nat := [0, 1, 1, 0, 171]

/-- Seven trailing junk bytes whose third byte declares a 4-byte payload
that is not present. -/
def junk7 : List Nat := [0, 0, 4, 0, 0, 0, 0]

/-- A framed data record for entry 1 whose declared payload length is 0. -/
def empty_payload_record : List Nat := [0, 1, 0, 4]

/-- A Start control record declaring entry 1 with name y and type raw. -/
def start_raw_bytes : List Nat :=
  ((ControlRecord.Start (strCp "y") (strCp "raw") []).write_to 3 1).toOption.getD []

/-- A reader state with one entry k holding two values, for the query
witnesses. -/
def query_reader : DataLogReader :=
  ⟨(1, 0), [], [(strCp "k", 1)],
    [(1, ⟨[(5, FrcValue.Boolean true), (10, FrcValue.Int 3)], [], []⟩)]⟩

/-! Helper lemmas. -/

theorem leBytes_length (n v : Nat) : (leBytes n v).length = n := by
  induction n generalizing v with
  | zero => rfl
  | succ n ih => simp [leBytes, ih]

theorem leVal_leBytes (n v : Nat) : leVal (leBytes n v) = v % 2 ^ (8 * n) := by
  induction n generalizing v with
  | zero => simp [leBytes, leVal, Nat.mod_one]
  | succ n ih =>
    have hpow : 2 ^ (8 * (n + 1)) = 256 * 2 ^ (8 * n) := by ring
    rw [leBytes, leVal, ih, hpow, Nat.mod_mul]
    omega

theorem leVal_lt (bs : List Nat) : leVal bs < 2 ^ (8 * bs.length) := by
  induction bs with
  | nil => simp [leVal]
  | cons b rest ih =>
    have hb : b % 256 < 256 := Nat.mod_lt _ (by norm_num)
    have hpow : 2 ^ (8 * (rest.length + 1)) = 256 * 2 ^ (8 * rest.length) := by ring
    simp only [leVal, List.length_cons, hpow]
    omega

theorem chain_insertByTs {α : Type} (x : Nat × α) (l : List (Nat × α))
    (h : List.Chain' (fun a b => a.1 ≤ b.1) l) :
    List.Chain' (fun a b => a.1 ≤ b.1) (insertByTs x l) := by
  induction l with
  | nil => simp [insertByTs]
  | cons y ys ih =>
    by_cases hxy : x.1 ≤ y.1
    · simp only [insertByTs, if_pos hxy]
      exact List.Chain'.cons hxy h
    · simp only [insertByTs, if_neg hxy]
      have hys := h.tail
      have hchain := ih hys
      cases ys with
      | nil =>
        simp only [insertByTs] at hchain ⊢
        exact List.Chain'.cons (by omega) hchain
      | cons z zs =>
        have hyz : y.1 ≤ z.1 := List.chain'_cons.mp h |>.1
        by_cases hxz : x.1 ≤ z.1
        · simp only [insertByTs, if_pos hxz] at hchain ⊢
          exact List.Chain'.cons (by omega) hchain
        · simp only [insertByTs, if_neg hxz] at hchain ⊢
          exact List.Chain'.cons hyz hchain

theorem chain_sortByTs {α : Type} (l : List (Nat × α)) :
    List.Chain' (fun a b => a.1 ≤ b.1) (sortByTs l) := by
  induction l with
  | nil => simp [sortByTs]
  | cons x xs ih => exact chain_insertByTs x _ ih

theorem serialLoop_eq (cs : List Nat) :
    ∀ v i, v < 2 ^ 32 →
      serialLoop v i cs =
        (v + ((List.enumFrom i cs).map (fun p => p.2 * ((p.1 + 1) % 8))).sum) % 2 ^ 32 := by
  induction cs with
  | nil =>
    intro v i hv
    simp only [serialLoop, List.enumFrom, List.map_nil, List.sum_nil, Nat.add_zero]
    omega
  | cons c cs ih =>
    intro v i hv
    have hlt : (v + c * ((i + 1) % 8)) % 2 ^ 32 < 2 ^ 32 :=
      Nat.mod_lt _ (by norm_num)
    rw [serialLoop, ih _ _ hlt]
    simp only [List.enumFrom, List.map_cons, List.sum_cons]
    rw [Nat.mod_add_mod]
    omega

theorem pow_bound_le (n k v : Nat) (hlow : 2 ^ (8 * k) ≤ v)
    (hhigh : v < 2 ^ (8 * n)) : k + 1 ≤ n := by
  by_contra hcon
  push_neg at hcon
  have : 2 ^ (8 * n) ≤ 2 ^ (8 * k) :=
    Nat.pow_le_pow_right (by norm_num) (by omega)
  omega

theorem shrink_value (u : UInt) : (UInt.shrink u).value = u.value := by
  unfold UInt.shrink UInt.new_unchecked
  dsimp only
  split_ifs <;> rfl

theorem shrink_size_le (m v n : Nat) (hn : 0 < n) (hv : v < 2 ^ (8 * n)) :
    (UInt.shrink ⟨m, v⟩).size ≤ n := by
  unfold UInt.shrink UInt.new_unchecked
  dsimp only
  split_ifs with h1 h2 h3 h4 h5 h6 h7
  · exact hn
  · exact pow_bound_le n 1 v (by norm_num; omega) hv
  · exact pow_bound_le n 2 v (by norm_num; omega) hv
  · exact pow_bound_le n 3 v (by norm_num; omega) hv
  · exact pow_bound_le n 4 v (by norm_num; omega) hv
  · exact pow_bound_le n 5 v (by norm_num; omega) hv
  · exact pow_bound_le n 6 v (by norm_num; omega) hv
  · exact pow_bound_le n 7 v (by norm_num; omega) hv

theorem from_binary_as_binary (k v : Nat) (hk : 0 < k) (hk8 : k ≤ 8)
    (hv : v < 2 ^ (8 * k)) :
    UInt.from_binary (UInt.as_binary ⟨k, v⟩) = .ok (UInt.new k v) := by
  unfold UInt.as_binary UInt.from_binary
  simp only [leBytes_length]
  rw [if_pos (by omega), if_pos hk8, leVal_leBytes, Nat.mod_eq_of_lt hv]

/-! Claim theorems. -/

/-- C1: the spec says a data record for an Alive entry is appended to the
value timeline, and that three int64 values written for entry x are returned
by read_entry. In the code the Data arm keeps a value only when matches_type
is false, so the three well-typed int64 data records of sample_file decode
correctly yet the ingested value timeline and read_entry are empty. -/
theorem c1_reader_drops_matching_values :
    parse_records sample_records_bytes [] =
      .ok [.Control (.Start (strCp "x") (strCp "int64") []) 5 1,
        .Data (.Integer 10) 10 1, .Data (.Integer 20) 20 1,
        .Data (.Integer 30) 30 1] ∧
    try_new sample_file DataLogReaderConfig.default = .ok sample_reader ∧
    sample_reader.data = [(1, ⟨[], [(5, [])], [(5, strCp "int64")]⟩)] ∧
    (try_new sample_file DataLogReaderConfig.default).map
      (fun r => read_entry r (strCp "x")) = .ok [] :=
  ⟨rfl, rfl, rfl, rfl⟩

/-- C2: the claim says user entry ids are at least 1 and a framed id 0 means
control. The writer's id counter starts at 0, so the first user entry gets
id 0; the data record it then frames carries id 0 and the decoder classifies
those bytes as a (malformed) control record even when the type map knows the
entry. -/
theorem c2_first_entry_id_zero_framed_as_control :
    (writer0.get_entry_dynamic (strCp "x") .Int none 7).map
      (fun p => p.2.entry_id) = .ok 0 ∧
    (DataRecord.Integer 10).write_to 9 0 =
      .ok [0, 0, 8, 9, 10, 0, 0, 0, 0, 0, 0, 0] ∧
    Record.from_binary [0, 0, 8, 9, 10, 0, 0, 0, 0, 0, 0, 0]
      (ainsert 0 INT_TYPE_SERIAL []) =
      .error (.RecordDeserialize "Unsupported control record") :=
  ⟨rfl, rfl, rfl⟩

/-- C3: the claim says every control record round-trips through its encoding
with the timestamp and logical id preserved, including the Metadata variant.
The encoder writes the Metadata body as (length, id) without the metadata
bytes, while the decoder expects (id, length, bytes): decoding the exact
bytes produced for Metadata "a" at id 1 fails instead of returning the
record, whereas Finish round-trips. -/
theorem c3_metadata_control_record_not_roundtrip :
    (ControlRecord.Metadata (strCp "a")).write_to 0 1 =
      .ok [0, 0, 10, 0, 2, 1, 0, 0, 0, 1, 0, 0, 0] ∧
    Record.from_binary [0, 0, 10, 0, 2, 1, 0, 0, 0, 1, 0, 0, 0] [] =
      .error (.RecordDeserialize "Unsupported control record") ∧
    ControlRecord.Finish.write_to 77 3 = .ok [0, 0, 5, 77, 1, 3, 0, 0, 0] ∧
    Record.from_binary [0, 0, 5, 77, 1, 3, 0, 0, 0] [] =
      .ok (.Control .Finish 77 3) :=
  ⟨rfl, rfl, rfl, rfl⟩

/-- C4: the claim says decoding a truncated stream drops the trailing
fragment and reports no error, in particular for 7 arbitrary trailing bytes.
The code breaks gracefully only when fewer bytes remain than the three
header fields declare; tiny_stream alone decodes to its record, but with the
7 trailing bytes of junk7 appended (whose fragment declares a 4-byte payload
that is absent) both the chunker and parse_records return an error instead
of the valid record. -/
theorem c4_truncation_not_graceful :
    chunk_by_record tiny_stream = .ok [tiny_stream] ∧
    parse_records tiny_stream [] = .ok [.Data (.Raw [171]) 0 1] ∧
    chunk_by_record (tiny_stream ++ junk7) =
      .error (.RecordReaderOutOfBounds "bytes") ∧
    parse_records (tiny_stream ++ junk7) [] =
      .error (.RecordReaderOutOfBounds "bytes") :=
  ⟨rfl, rfl, rfl, rfl⟩

/-- C5 counterexample: the claim says from_binary yields a value whose size
equals the slice length and fails exactly above 8 bytes. On [0, 0] the
result is shrunk to size 1, not 2; and on 9 bytes the code hits the
out-of-bounds copy rather than returning no value. -/
theorem c5_from_binary_claim_false :
    UInt.from_binary [0, 0] = .ok ⟨1, 0⟩ ∧
    (1 : Nat) ≠ [0, 0].length ∧
    UInt.from_binary (List.replicate 9 0) = .indexPanic := by
  refine ⟨rfl, by decide, by decide⟩

/-- C5 amended: from_binary reads the slice little-endian; for length at
most 8 it returns the shrunk value (size minimal, hence at most max 1 len,
and equal to len only when len is already minimal); for lengths 9..=255 the
copy into the 8-byte buffer panics; above 255 the u8 conversion fails and it
returns no value. -/
theorem c5_from_binary_amended (bs : List Nat) :
    (bs.length ≤ 8 →
      UInt.from_binary bs = .ok (UInt.shrink ⟨bs.length, leVal bs⟩) ∧
      (UInt.shrink ⟨bs.length, leVal bs⟩).value = leVal bs ∧
      (UInt.shrink ⟨bs.length, leVal bs⟩).size ≤ max 1 bs.length) ∧
    (8 < bs.length → bs.length ≤ 255 → UInt.from_binary bs = .indexPanic) ∧
    (255 < bs.length → UInt.from_binary bs = .failed) := by
  refine ⟨?_, ?_, ?_⟩
  · intro h8
    refine ⟨?_, shrink_value _, ?_⟩
    · unfold UInt.from_binary UInt.new UInt.new_unchecked
      rw [if_pos (by omega), if_pos h8]
    · refine shrink_size_le _ _ _ (by omega) ?_
      calc leVal bs < 2 ^ (8 * bs.length) := leVal_lt bs
        _ ≤ 2 ^ (8 * max 1 bs.length) :=
          Nat.pow_le_pow_right (by norm_num) (by omega)
  · intro h8 h255
    unfold UInt.from_binary
    rw [if_pos (by omega), if_neg (by omega)]
  · intro h255
    unfold UInt.from_binary
    rw [if_neg (by omega)]

/-- C5 witness: the amended theorem evaluated at slices of length 2, 9 and
256. -/
theorem c5_from_binary_amended_witness :
    UInt.from_binary [0, 0] = .ok (UInt.shrink ⟨[0, 0].length, leVal [0, 0]⟩) ∧
    UInt.from_binary (List.replicate 9 0) = .indexPanic ∧
    UInt.from_binary (List.replicate 256 0) = .failed :=
  ⟨((c5_from_binary_amended [0, 0]).1 (by decide)).1,
   (c5_from_binary_amended (List.replicate 9 0)).2.1
     (by rw [List.length_replicate]; norm_num)
     (by rw [List.length_replicate]; norm_num),
   (c5_from_binary_amended (List.replicate 256 0)).2.2
     (by rw [List.length_replicate]; norm_num)⟩

/-- C6: the VarUInt round-trip law. For every value below 2 to the 64,
reading back the binary form of the shrunk value returns a UInt equal in
both size and value to the shrunk one. -/
theorem c6_varuint_roundtrip (v : Nat) (h : v < 2 ^ 64) :
    UInt.from_binary (UInt.fromU64 v).as_binary = .ok (UInt.fromU64 v) := by
  have hmain : UInt.fromU64 v = UInt.shrink ⟨8, v⟩ := rfl
  rw [hmain]
  unfold UInt.shrink UInt.new_unchecked
  dsimp only
  split_ifs with h1 h2 h3 h4 h5 h6 h7
  · rw [from_binary_as_binary 1 v (by norm_num) (by norm_num) (by norm_num; omega)]
    simp [UInt.new, UInt.new_unchecked, UInt.shrink, h1]
  · rw [from_binary_as_binary 2 v (by norm_num) (by norm_num) (by norm_num; omega)]
    simp [UInt.new, UInt.new_unchecked, UInt.shrink, h1, h2]
  · rw [from_binary_as_binary 3 v (by norm_num) (by norm_num) (by norm_num; omega)]
    simp [UInt.new, UInt.new_unchecked, UInt.shrink, h1, h2, h3]
  · rw [from_binary_as_binary 4 v (by norm_num) (by norm_num) (by norm_num; omega)]
    simp [UInt.new, UInt.new_unchecked, UInt.shrink, h1, h2, h3, h4]
  · rw [from_binary_as_binary 5 v (by norm_num) (by norm_num) (by norm_num; omega)]
    simp [UInt.new, UInt.new_unchecked, UInt.shrink, h1, h2, h3, h4, h5]
  · rw [from_binary_as_binary 6 v (by norm_num) (by norm_num) (by norm_num; omega)]
    simp [UInt.new, UInt.new_unchecked, UInt.shrink, h1, h2, h3, h4, h5, h6]
  · rw [from_binary_as_binary 7 v (by norm_num) (by norm_num) (by norm_num; omega)]
    simp [UInt.new, UInt.new_unchecked, UInt.shrink, h1, h2, h3, h4, h5, h6, h7]
  · rw [from_binary_as_binary 8 v (by norm_num) (by norm_num) (by norm_num; omega)]
    simp [UInt.new, UInt.new_unchecked, UInt.shrink, h1, h2, h3, h4, h5, h6, h7]

/-- C6 witness: the round trip evaluated at a five-byte value. -/
theorem c6_varuint_roundtrip_witness :
    UInt.from_binary (UInt.fromU64 (2 ^ 40 + 5)).as_binary =
      .ok (UInt.fromU64 (2 ^ 40 + 5)) :=
  c6_varuint_roundtrip (2 ^ 40 + 5) (by norm_num)

/-- C7: the runtime type-serial fingerprint equals the specification formula
(sum of codepoints times 1-based index mod 8, times the length, plus the
length, as a u32, the length being the UTF-8 byte length), and on the string
test it equals the compile-time constant built by the macro rule. -/
theorem c7_type_serial_formula (ty : List Nat) :
    get_str_type_serial ty = typeSerialSpec ty ∧
    get_str_type_serial (strCp "test") = TEST_SERIAL := by
  constructor
  · unfold get_str_type_serial typeSerialSpec
    dsimp only
    rw [show ty.enum = List.enumFrom 0 ty from rfl,
      serialLoop_eq ty 0 0 (by norm_num), Nat.zero_add]
    rw [Nat.add_mod, Nat.mod_mul_mod, ← Nat.add_mod]
  · decide

/-- C8: after a successful try_new, every ingested entry has its three
timelines sorted non-decreasing by timestamp. -/
theorem c8_timelines_sorted (file : List Nat) (config : DataLogReaderConfig)
    (r : DataLogReader) (id : Nat) (d : EntryData)
    (hok : try_new file config = .ok r) (hmem : (id, d) ∈ r.data) :
    List.Chain' (fun a b => a.1 ≤ b.1) d.values ∧
    List.Chain' (fun a b => a.1 ≤ b.1) d.metadata ∧
    List.Chain' (fun a b => a.1 ≤ b.1) d.type_str := by
  unfold try_new at hok
  cases hra : readAll file config with
  | error e => rw [hra] at hok; exact absurd hok (by simp [Except.map])
  | ok r0 =>
    rw [hra] at hok
    simp only [Except.map, Except.ok.injEq] at hok
    subst hok
    unfold sort_data at hmem
    simp only [List.mem_map] at hmem
    obtain ⟨p, hp, hfp⟩ := hmem
    have hd : d = ⟨sortByTs p.2.values, sortByTs p.2.metadata, sortByTs p.2.type_str⟩ := by
      cases hfp
      rfl
    subst hd
    exact ⟨chain_sortByTs _, chain_sortByTs _, chain_sortByTs _⟩

/-- C8 witness: the theorem applied to sample_file, whose single entry
ingests to the concrete timelines below. -/
theorem c8_timelines_sorted_witness :
    List.Chain' (fun a b => a.1 ≤ b.1)
      (⟨[], [(5, [])], [(5, strCp "int64")]⟩ : EntryData).values ∧
    List.Chain' (fun a b => a.1 ≤ b.1)
      (⟨[], [(5, [])], [(5, strCp "int64")]⟩ : EntryData).metadata ∧
    List.Chain' (fun a b => a.1 ≤ b.1)
      (⟨[], [(5, [])], [(5, strCp "int64")]⟩ : EntryData).type_str :=
  c8_timelines_sorted sample_file DataLogReaderConfig.default sample_reader 1
    ⟨[], [(5, [])], [(5, strCp "int64")]⟩ rfl (by decide)

/-- C9: for a key bound to an entry, read_entry_after returns exactly the
stored values with timestamp strictly above the bound, read_entry_before
exactly those strictly below, and read_entry_between exactly those inside
the inclusive range. -/
theorem c9_time_range_queries (r : DataLogReader) (key : List Nat)
    (t a b : Nat) (id : Nat) (d : EntryData)
    (hk : alookup key r.keys = some id) (hd : alookup id r.data = some d) :
    (∀ v, v ∈ read_entry_after r key t ↔ v ∈ d.values ∧ t < v.1) ∧
    (∀ v, v ∈ read_entry_before r key t ↔ v ∈ d.values ∧ v.1 < t) ∧
    (∀ v, v ∈ read_entry_between r key a b ↔ v ∈ d.values ∧ a ≤ v.1 ∧ v.1 ≤ b) := by
  unfold read_entry_after read_entry_before read_entry_between
  rw [hk]
  dsimp only
  rw [hd]
  refine ⟨fun v => ?_, fun v => ?_, fun v => ?_⟩ <;>
    simp [List.mem_filter]

/-- C9 witness: the three membership characterizations evaluated on a
two-value entry. -/
theorem c9_time_range_queries_witness :
    ((10, FrcValue.Int 3) ∈ read_entry_after query_reader (strCp "k") 7) ∧
    ((5, FrcValue.Boolean true) ∈ read_entry_before query_reader (strCp "k") 7) ∧
    ((10, FrcValue.Int 3) ∈ read_entry_between query_reader (strCp "k") 6 12) := by
  have h := c9_time_range_queries query_reader (strCp "k") 7 6 12 1
    ⟨[(5, FrcValue.Boolean true), (10, FrcValue.Int 3)], [], []⟩
    (by decide) (by decide)
  exact ⟨(h.1 _).mpr (by decide), (h.2.1 _).mpr (by decide),
    (h.2.2 _).mpr (by decide)⟩

/-- C10: DataRecord::from_binary rejects every empty payload before looking
at the type serial, and a framed data record with declared payload length 0
is dropped during ingest even when the entry type (raw here) admits an empty
value. -/
theorem c10_empty_payload_always_rejected :
    (∀ type_serial, DataRecord.from_binary [] type_serial =
      .error (.RecordReaderOutOfBounds "Bytes len is 0")) ∧
    parse_records (start_raw_bytes ++ empty_payload_record) [] =
      .ok [.Control (.Start (strCp "y") (strCp "raw") []) 3 1] :=
  ⟨fun _ => rfl, rfl⟩

end DataLogSpec
